import Mathlib

/-!
Verification of the GuaranteeBettor trading pipeline.

Shallow embedding of the Python sources:
  src/strategy/edge_calculator.py, src/strategy/threshold_map.py,
  src/strategy/moneyline_map.py, src/agents/brain.py, src/agents/shield.py,
  src/agents/oracle.py, src/agents/sniper.py, src/utils/circuit_breaker.py,
  src/bus/event_bus.py, src/sports/espn.py, src/models/state.py,
  src/models/events.py.

Numeric conventions: all cent amounts are ℤ.  The Python code computes edge
arithmetic in binary64 floating point with fee_rate = 0.07; the doc comments
of the corresponding definitions record why the float computation is exact,
so the integer model below returns bit-identical results on every reachable
input.  Monetary win probabilities are carried as integer percentages
(68 for the float literal 0.68, etc.).
-/

/-! ## Edge calculator — src/strategy/edge_calculator.py -/

/-- KALSHI_FEE_RATE = 0.07, as an integer percentage (7%). -/
def KALSHI_FEE_RATE_PCT : ℤ := 7

/-- CONTRACT_PAYOUT_CENTS = 100. -/
def CONTRACT_PAYOUT_CENTS : ℤ := 100

/-- net_payout = CONTRACT_PAYOUT_CENTS * (1.0 - fee_rate) at the default
fee_rate = 0.07.  In binary64, 1.0 - 0.07 rounds to the double nearest 0.93
and 100 * that double rounds to exactly 93.0, so the Python float expression
evaluates to the integer 93 exactly. -/
def NET_PAYOUT_CENTS : ℤ := CONTRACT_PAYOUT_CENTS * (100 - KALSHI_FEE_RATE_PCT) / 100

/-- calculate_edge(yes_ask_cents): int(net_payout - yes_ask_cents).
net_payout is exactly 93.0 (see NET_PAYOUT_CENTS), so the int() truncation
is the identity on the integer 93 - yes_ask. -/
def calculate_edge (yes_ask_cents : ℤ) : ℤ :=
  NET_PAYOUT_CENTS - yes_ask_cents

/-- max_tradeable_price(min_edge_cents): int(net_payout - min_edge_cents),
exact for the same reason as calculate_edge. -/
def max_tradeable_price (min_edge_cents : ℤ) : ℤ :=
  NET_PAYOUT_CENTS - min_edge_cents

/-- has_edge(yes_ask_cents, min_edge_cents): calculate_edge >= min_edge. -/
def has_edge (yes_ask_cents min_edge_cents : ℤ) : Bool :=
  min_edge_cents ≤ calculate_edge yes_ask_cents

/-- Python int() truncation toward zero of the rational n / 100, for n : ℤ.
Both branches divide natural numbers, where Lean division is plain floor
division, matching truncation toward zero on each sign. -/
def truncDivHundred (n : ℤ) : ℤ :=
  if n < 0 then -(((-n).toNat / 100 : ℕ) : ℤ) else ((n.toNat / 100 : ℕ) : ℤ)

/-- Modelled from the spec: calculate_moneyline_edge(ask, win_prob) is
imported by src/agents/brain.py from strategy.edge_calculator but absent from
src/strategy/edge_calculator.py.  The spec gives the formula
100 x win_prob x (1 - fee_rate) - ask, mirroring the totals edge (so wrapped
in int() truncation).  win_prob is passed as an integer percentage wpPct;
the exact value is (93 * wpPct - 100 * ask) / 100.  For every win probability
the program can produce (0.68, 0.78, 0.86, 0.93, 0.97 — see
estimate_win_prob) the binary64 product 100 * wp * (1 - 0.07) differs from
the exact rational by far less than its distance to the nearest integer, so
the float int() agrees with this integer truncation. -/
def calculate_moneyline_edge (ask : ℤ) (wpPct : ℤ) : ℤ :=
  truncDivHundred ((100 - KALSHI_FEE_RATE_PCT) * wpPct - 100 * ask)

/-- Modelled from the spec: has_moneyline_edge(ask, win_prob, min_edge),
mirroring has_edge: the fee-adjusted moneyline edge is at least min_edge. -/
def has_moneyline_edge (ask wpPct min_edge_cents : ℤ) : Bool :=
  min_edge_cents ≤ calculate_moneyline_edge ask wpPct

/-! ## Threshold map — src/strategy/threshold_map.py -/

/-- ThresholdEntry dataclass. -/
structure ThresholdEntry where
  trigger_score : ℤ
  market_ticker : String
  side : String
  already_triggered : Bool
deriving DecidableEq, Repr

/-- The characters after the last '-' of the ticker (the whole ticker when it
has no '-'): ticker.rsplit("-", 1)[-1]. -/
def lastDashSegment (chars : List Char) : List Char :=
  chars.foldl (fun acc c => if c = '-' then [] else acc ++ [c]) []

/-- The whitespace characters Python's int() strips from a str argument
(the ASCII ones; int() also strips unicode whitespace, which no Kalshi
ticker contains). -/
def isPyWhitespace (c : Char) : Bool :=
  c = ' ' ∨ c = '\t' ∨ c = '\n' ∨ c = '\x0d' ∨ c = '\x0b' ∨ c = '\x0c'

/-- Continuation of the int() digitpart after at least one digit has been
read: further digits, with a single underscore allowed only between two
digits; a trailing underscore, a double underscore or any non-digit fails
(ValueError). -/
def digitsRest : List Char → ℕ → Option ℕ
  | [], acc => some acc
  | '_' :: c :: rest, acc =>
      if c.isDigit then digitsRest rest (acc * 10 + (c.toNat - 48)) else none
  | c :: rest, acc =>
      if c.isDigit then digitsRest rest (acc * 10 + (c.toNat - 48)) else none

/-- The int() digitpart: at least one leading ASCII digit (the empty string
is a ValueError), then digitsRest.  (int() also accepts unicode decimal
digits; no Kalshi ticker contains those.) -/
def digitPart : List Char → Option ℕ
  | [] => none
  | c :: rest => if c.isDigit then digitsRest rest (c.toNat - 48) else none

/-- Python int(s) on a str: strip surrounding whitespace, then an optional
sign directly followed by the digitpart.  Empty and bare-sign inputs are
ValueError, hence none. -/
def pyIntOfChars (chars : List Char) : Option ℤ :=
  let stripped :=
    ((chars.dropWhile isPyWhitespace).reverse.dropWhile isPyWhitespace).reverse
  match stripped with
  | '-' :: rest => (digitPart rest).map (fun n => -(n : ℤ))
  | '+' :: rest => (digitPart rest).map (fun n => (n : ℤ))
  | l => (digitPart l).map (fun n => (n : ℤ))

/-- _trigger_from_ticker: int of the trailing '-'-separated ticker segment,
none when the int() parse raises. -/
def trigger_from_ticker (ticker : String) : Option ℤ :=
  pyIntOfChars (lastDashSegment ticker.data)

/-- A Kalshi market dict as consumed by the builders: only the "ticker" field
is read (mkt.get("ticker", "")). -/
structure KalshiMarket where
  ticker : String
deriving DecidableEq, Repr

/-- The comparison entries.sort uses: key=lambda e: e.trigger_score. -/
def entryLE (a b : ThresholdEntry) : Prop :=
  a.trigger_score ≤ b.trigger_score

instance : DecidableRel entryLE := fun a b => by
  unfold entryLE; infer_instance

instance : IsTotal ThresholdEntry entryLE :=
  ⟨fun a b => Int.le_total a.trigger_score b.trigger_score⟩

instance : IsTrans ThresholdEntry entryLE :=
  ⟨fun _ _ _ hab hbc => le_trans hab hbc⟩

/-- entries.sort(key=lambda e: e.trigger_score): Python list.sort is a stable
ascending sort, whose output list is exactly the stable insertion sort. -/
def sortEntries (entries : List ThresholdEntry) : List ThresholdEntry :=
  List.insertionSort entryLE entries

/-- ThresholdMap.build_basketball_entries: one entry per market whose ticker
parses, side "yes", already_triggered when trigger <= current_total, sorted
ascending by trigger.  (The lookahead parameter of the Python signature is
unused by the body.) -/
def build_basketball_entries (current_total : ℤ) (kalshi_markets : List KalshiMarket) :
    List ThresholdEntry :=
  sortEntries <| kalshi_markets.filterMap fun mkt =>
    (trigger_from_ticker mkt.ticker).map fun trigger =>
      { trigger_score := trigger
        market_ticker := mkt.ticker
        side := "yes"
        already_triggered := decide (trigger ≤ current_total) }

/-- ThresholdMap.build_soccer_entries: same body as the basketball builder. -/
def build_soccer_entries (current_total : ℤ) (kalshi_markets : List KalshiMarket) :
    List ThresholdEntry :=
  sortEntries <| kalshi_markets.filterMap fun mkt =>
    (trigger_from_ticker mkt.ticker).map fun trigger =>
      { trigger_score := trigger
        market_ticker := mkt.ticker
        side := "yes"
        already_triggered := decide (trigger ≤ current_total) }

/-! ## Events and brain hot path — src/models/events.py, src/agents/brain.py -/

/-- GameEvent (the fields the verified paths read). -/
structure GameEvent where
  sport : String
  game_id : String
  home_score : ℤ
  away_score : ℤ
  total_score : ℤ
  period : ℤ
  is_final : Bool
deriving DecidableEq, Repr

/-- MarketUpdate (the price fields the brain reads). -/
structure MarketUpdate where
  yes_bid : ℤ
  yes_ask : ℤ
  no_bid : ℤ
  no_ask : ℤ
deriving DecidableEq, Repr

/-- ExecuteTrade (without the nondeterministic uuid signal_id and
monotonic-clock generated_at_ns fields). -/
structure ExecuteTrade where
  market_ticker : String
  side : String
  max_price_cents : ℤ
  quantity : ℤ
deriving DecidableEq, Repr

/-- The BrainAgent constructor parameters the signal paths read. -/
structure BrainConfig where
  min_edge_cents : ℤ
  max_slippage_cents : ℤ
  max_spend_per_trade_cents : ℤ
  max_quantity : ℤ
deriving DecidableEq, Repr

/-- BrainAgent._quantity_for_price: min(max(1, spend // max(ask, 1)), max_q).
Python // is floor division, Int.fdiv. -/
def quantity_for_price (cfg : BrainConfig) (ask_cents : ℤ) : ℤ :=
  min (max 1 (Int.fdiv cfg.max_spend_per_trade_cents (max ask_cents 1))) cfg.max_quantity

/-- BrainAgent._evaluate_and_signal, as a function of the entry, the halt
flag, the watcher-cache lookup result and the REST-fallback result (the two
exogenous market sources, consulted in that order).  Mirrors the statement
order of the Python body: the already_triggered flag is assigned True first,
before the halt check, the cache read, the REST fallback, the edge check and
the publish.  Returns the mutated entry and the published signal, if any. -/
def evaluate_and_signal (cfg : BrainConfig) (entry : ThresholdEntry) (halted : Bool)
    (cache rest : Option MarketUpdate) : ThresholdEntry × Option ExecuteTrade :=
  let entry' := { entry with already_triggered := true }
  if halted then (entry', none)
  else
    match cache.orElse (fun _ => rest) with
    | none => (entry', none)
    | some market =>
        let yes_ask := market.yes_ask
        if has_edge yes_ask cfg.min_edge_cents then
          let limit_price := min (yes_ask + cfg.max_slippage_cents)
            (max_tradeable_price cfg.min_edge_cents)
          (entry', some { market_ticker := entry.market_ticker
                          side := entry.side
                          max_price_cents := limit_price
                          quantity := quantity_for_price cfg yes_ask })
        else (entry', none)

/-- The totals loop of BrainAgent._process_event (lines 161-168): scan the
registered entries in order; skip entries already triggered or whose trigger
exceeds the event total; evaluate the rest.  The sequential function models
the run in which every evaluation completes without interleaving (guaranteed
whenever the watcher cache answers, since then the body has no suspension
point); interleaved runs are covered by the C1Step small-step model below. -/
def process_totals (cfg : BrainConfig) (halted : Bool)
    (cache rest : String → Option MarketUpdate) (total : ℤ) :
    List ThresholdEntry → List ThresholdEntry × List ExecuteTrade
  | [] => ([], [])
  | entry :: more =>
      if entry.already_triggered then
        let (es, sigs) := process_totals cfg halted cache rest total more
        (entry :: es, sigs)
      else if total < entry.trigger_score then
        let (es, sigs) := process_totals cfg halted cache rest total more
        (entry :: es, sigs)
      else
        let (entry', sigOpt) := evaluate_and_signal cfg entry halted
          (cache entry.market_ticker) (rest entry.market_ticker)
        let (es, sigs) := process_totals cfg halted cache rest total more
        (entry' :: es, sigOpt.toList ++ sigs)

/-- _estimate_win_prob, returning the probability as an integer percentage
(the Python floats 0.68 ... 0.97 times 100); 0 means skip. -/
def estimate_win_prob (lead_margin period : ℤ) (sport : String) : ℤ :=
  if sport = "ncaa_basketball" then
    if period < 2 then 0
    else if 20 ≤ lead_margin then 97
    else if 15 ≤ lead_margin then 93
    else if 10 ≤ lead_margin then 86
    else if 7 ≤ lead_margin then 78
    else if 5 ≤ lead_margin then 68
    else 0
  else if sport = "premier_league" ∨ sport = "champions_league" then
    if period < 2 then 0
    else if 3 ≤ lead_margin then 97
    else if 2 ≤ lead_margin then 91
    else if 1 ≤ lead_margin then 68
    else 0
  else 0

/-! ## Moneyline map — src/strategy/moneyline_map.py -/

/-- _SIGNAL_COOLDOWN_NS = 45_000_000_000. -/
def SIGNAL_COOLDOWN_NS : ℤ := 45000000000

/-- MoneylineEntry dataclass. -/
structure MoneylineEntry where
  market_ticker : String
  team_side : String
  trade_side : String
  last_signaled_ns : ℤ
deriving DecidableEq, Repr

/-- MoneylineEntry.on_cooldown. -/
def MoneylineEntry.on_cooldown (e : MoneylineEntry) (now_ns : ℤ) : Bool :=
  now_ns - e.last_signaled_ns < SIGNAL_COOLDOWN_NS

/-- MoneylineEntry.mark_signaled. -/
def MoneylineEntry.mark_signaled (e : MoneylineEntry) (now_ns : ℤ) : MoneylineEntry :=
  { e with last_signaled_ns := now_ns }

/-- The per-entry loop body of BrainAgent._check_moneyline_signal, including
the halt check that guards the whole call.  home_scored / away_scored are the
comparisons of the event scores against the snapshotted previous scores;
lead = home_score - away_score; market is the watcher-cache lookup result.
mark_signaled runs before the publish, as in the source. -/
def check_moneyline_entry (cfg : BrainConfig) (halted : Bool) (sport : String)
    (period lead : ℤ) (home_scored away_scored : Bool) (now_ns : ℤ)
    (entry : MoneylineEntry) (market : Option MarketUpdate) :
    MoneylineEntry × Option ExecuteTrade :=
  if halted then (entry, none)
  else if entry.on_cooldown now_ns then (entry, none)
  else if entry.team_side = "home" ∧ ¬(home_scored ∧ 0 < lead) then (entry, none)
  else if ¬(entry.team_side = "home") ∧ ¬(away_scored ∧ lead < 0) then (entry, none)
  else
    let margin := if entry.team_side = "home" then lead else |lead|
    let win_prob := estimate_win_prob margin period sport
    if win_prob = 0 then (entry, none)
    else
      match market with
      | none => (entry, none)
      | some m =>
          let ask := if entry.trade_side = "yes" then m.yes_ask else m.no_ask
          if has_moneyline_edge ask win_prob cfg.min_edge_cents then
            let entry' := entry.mark_signaled now_ns
            (entry', some { market_ticker := entry.market_ticker
                            side := entry.trade_side
                            max_price_cents := min (ask + cfg.max_slippage_cents) 97
                            quantity := quantity_for_price cfg ask })
          else (entry, none)

/-! ## Risk state and Shield — src/models/state.py, src/agents/shield.py -/

/-- RiskState dataclass with its field defaults. -/
structure RiskState where
  daily_realized_pnl_cents : ℤ := 0
  open_exposure_cents : ℤ := 0
  trades_today : ℤ := 0
  last_circuit_break_reason : Option String := none
  is_halted : Bool := false
deriving DecidableEq, Repr

/-- RiskState.apply_fill. -/
def RiskState.apply_fill (r : RiskState) (cost_cents quantity : ℤ) : RiskState :=
  { r with open_exposure_cents := r.open_exposure_cents + cost_cents * quantity
           trades_today := r.trades_today + 1 }

/-- RiskState.apply_settlement (present in the source; never invoked by any
agent — shield._process_fill only calls apply_fill and halt). -/
def RiskState.apply_settlement (r : RiskState) (pnl_cents cost_cents quantity : ℤ) : RiskState :=
  { r with daily_realized_pnl_cents := r.daily_realized_pnl_cents + pnl_cents
           open_exposure_cents := r.open_exposure_cents - cost_cents * quantity }

/-- RiskState.halt. -/
def RiskState.halt (r : RiskState) (reason : String) : RiskState :=
  { r with is_halted := true, last_circuit_break_reason := some reason }

/-- RiskState.resume (never invoked by any agent). -/
def RiskState.resume (r : RiskState) : RiskState :=
  { r with is_halted := false, last_circuit_break_reason := none }

/-- FillReport (the fields Shield reads). -/
structure FillReport where
  market_ticker : String
  filled_quantity : ℤ
  avg_price_cents : ℤ
  status : String
deriving DecidableEq, Repr

/-- The ShieldAgent limits from its constructor. -/
structure ShieldConfig where
  max_daily_loss_cents : ℤ
  max_open_exposure_cents : ℤ
  max_trades_per_game : ℤ
deriving DecidableEq, Repr

/-- ShieldAgent mutable state: the owned RiskState plus the per-ticker trade
counter dict. -/
structure ShieldState where
  risk : RiskState
  game_trade_count : String → ℤ

/-- ShieldAgent._check_limits: in order, the daily-loss halt, the
open-exposure halt, and the advisory per-game warning (no state change). -/
def shield_check_limits (cfg : ShieldConfig) (s : ShieldState) : ShieldState :=
  if s.risk.is_halted then s
  else if s.risk.daily_realized_pnl_cents < -cfg.max_daily_loss_cents then
    { s with risk := s.risk.halt "Daily loss limit breached" }
  else if cfg.max_open_exposure_cents < s.risk.open_exposure_cents then
    { s with risk := s.risk.halt "Open exposure limit breached" }
  else s

/-- ShieldAgent._process_fill: ignore reports whose status is neither
"filled" nor "partial"; otherwise apply_fill(avg_price, filled_quantity),
bump the per-ticker counter, and check limits. -/
def shield_process_fill (cfg : ShieldConfig) (s : ShieldState) (report : FillReport) :
    ShieldState :=
  if report.status = "filled" ∨ report.status = "partial" then
    let risk' := s.risk.apply_fill report.avg_price_cents report.filled_quantity
    let counts' := fun g =>
      if g = report.market_ticker then s.game_trade_count g + 1 else s.game_trade_count g
    shield_check_limits cfg { risk := risk', game_trade_count := counts' }
  else s

/-- ShieldAgent.run consuming a finite prefix of the fill_reports channel. -/
def shield_run (cfg : ShieldConfig) (s : ShieldState) (reports : List FillReport) :
    ShieldState :=
  reports.foldl (shield_process_fill cfg) s

/-- Shield boot state: a fresh RiskState and an empty trade-count dict. -/
def shieldInit : ShieldState :=
  { risk := {}, game_trade_count := fun _ => 0 }

/-! ## Oracle — src/agents/oracle.py, src/bus/event_bus.py -/

/-- OracleAgent state together with the game_events channel it publishes to:
_seen is the dedup dict (newest binding first), queue the asyncio.Queue
contents, attempts the ghost log of every publish_game_event call. -/
structure OracleState where
  seen : List (String × ℤ × ℤ)
  queue : List GameEvent
  attempts : List GameEvent
deriving Repr

/-- Lookup in the dedup dict. -/
def seenLookup (s : OracleState) (game_id : String) : Option (ℤ × ℤ) :=
  s.seen.lookup game_id

/-- EventBus.publish_game_event: put_nowait on a bounded queue — enqueue when
below capacity, silently drop (with a log line) when full.  The attempts log
records the call either way. -/
def publish_game_event (cap : ℕ) (s : OracleState) (e : GameEvent) : OracleState :=
  if s.queue.length < cap then
    { s with queue := s.queue ++ [e], attempts := s.attempts ++ [e] }
  else
    { s with attempts := s.attempts ++ [e] }

/-- OracleAgent._maybe_publish: drop when the dedup dict holds exactly this
(home, away) for the game; otherwise overwrite the dict entry and then call
publish_game_event.  Both effects happen before any suspension. -/
def maybe_publish (cap : ℕ) (s : OracleState) (e : GameEvent) : OracleState :=
  if seenLookup s e.game_id = some (e.home_score, e.away_score) then s
  else
    publish_game_event cap
      { s with seen := (e.game_id, (e.home_score, e.away_score)) :: s.seen } e

/-- Interleaved system steps around the game_events channel: a feed delivery
fanned in by the Oracle, or the Brain consuming the queue head. -/
inductive OracleAct where
  | deliver (e : GameEvent)
  | consume
deriving Repr

/-- One step. -/
def oracleStep (cap : ℕ) (s : OracleState) : OracleAct → OracleState
  | OracleAct.deliver e => maybe_publish cap s e
  | OracleAct.consume => { s with queue := s.queue.tail }

/-- A run over a list of steps. -/
def oracleRun (cap : ℕ) (s : OracleState) (acts : List OracleAct) : OracleState :=
  acts.foldl (oracleStep cap) s

/-- Oracle boot state: empty dedup dict, empty channel. -/
def oracleInit : OracleState :=
  { seen := [], queue := [], attempts := [] }

/-- The (home, away) trace of the publish attempts for one game. -/
def gameScoreTrace (l : List GameEvent) (game_id : String) : List (ℤ × ℤ) :=
  (l.filter (fun e => e.game_id = game_id)).map (fun e => (e.home_score, e.away_score))

/-- How many times a given (game_id, home, away) triple was published. -/
def countTriple (l : List GameEvent) (game_id : String) (home away : ℤ) : ℕ :=
  l.countP (fun e => e.game_id = game_id ∧ e.home_score = home ∧ e.away_score = away)

/-! ## Circuit breaker and Sniper — src/utils/circuit_breaker.py,
src/agents/sniper.py -/

/-- _State: CLOSED / OPEN. -/
inductive CBState where
  | Closed
  | Open
deriving DecidableEq, Repr

/-- CircuitBreaker (the wall-clock telemetry field _opened_at_s is omitted:
no verified path reads it). -/
structure CircuitBreaker where
  state : CBState
  reason : Option String
  failure_count : ℕ
  failure_threshold : ℕ
deriving DecidableEq, Repr

/-- CircuitBreaker.__init__ with the given threshold (SniperAgent passes 3),
CLOSED with zero failures. -/
def circuitBreakerInit (failure_threshold : ℕ) : CircuitBreaker :=
  { state := CBState.Closed, reason := none, failure_count := 0,
    failure_threshold := failure_threshold }

/-- CircuitBreaker.is_open. -/
def CircuitBreaker.is_open (b : CircuitBreaker) : Bool :=
  b.state = CBState.Open

/-- CircuitBreaker.trip. -/
def CircuitBreaker.trip (b : CircuitBreaker) (reason : String) : CircuitBreaker :=
  { b with state := CBState.Open, reason := some reason }

/-- CircuitBreaker.record_failure: increment, then trip at the threshold. -/
def CircuitBreaker.record_failure (b : CircuitBreaker) (reason : String) : CircuitBreaker :=
  let b' := { b with failure_count := b.failure_count + 1 }
  if b'.failure_threshold ≤ b'.failure_count then b'.trip reason else b'

/-- CircuitBreaker.record_success: reset the counter. -/
def CircuitBreaker.record_success (b : CircuitBreaker) : CircuitBreaker :=
  { b with failure_count := 0 }

/-- Outcome of the single rest.place_order attempt: the raised exception
message, or the parsed order status from the response. -/
inductive OrderOutcome where
  | err (msg : String)
  | ok (status : String)
deriving DecidableEq, Repr

/-- What one SniperAgent._execute call did: whether place_order was invoked,
and the status of the FillReport it published (it publishes exactly one). -/
structure SniperResult where
  placed_order : Bool
  fill_status : String
deriving DecidableEq, Repr

/-- SniperAgent._execute: when the breaker is open, drop the signal without
calling place_order and still publish a rejected fill; otherwise attempt the
order — on exception record a breaker failure and publish a rejected fill,
on success record a breaker success and publish the reported status. -/
def sniper_execute (b : CircuitBreaker) (outcome : OrderOutcome) :
    CircuitBreaker × SniperResult :=
  if b.is_open then
    (b, { placed_order := false, fill_status := "rejected" })
  else
    match outcome with
    | OrderOutcome.err msg =>
        (b.record_failure msg, { placed_order := true, fill_status := "rejected" })
    | OrderOutcome.ok status =>
        (b.record_success, { placed_order := true, fill_status := status })

/-- SniperAgent.run over a finite prefix of the trade_signals channel, with
the exogenous order outcomes per attempt. -/
def sniper_run (b : CircuitBreaker) (outcomes : List OrderOutcome) :
    CircuitBreaker × List SniperResult :=
  match outcomes with
  | [] => (b, [])
  | o :: rest =>
      let (b', r) := sniper_execute b o
      let (b'', rs) := sniper_run b' rest
      (b'', r :: rs)

/-! ## Crunch-time gate and ESPN poll loop — src/models/state.py,
src/sports/espn.py -/

/-- CrunchTimeGate: the mutable set of active game ids. -/
structure CrunchTimeGate where
  active : List String
deriving Repr

/-- CrunchTimeGate.__init__: empty set. -/
def crunchTimeGateInit : CrunchTimeGate := { active := [] }

/-- CrunchTimeGate.activate. -/
def CrunchTimeGate.activate (g : CrunchTimeGate) (game_id : String) : CrunchTimeGate :=
  if game_id ∈ g.active then g else { active := game_id :: g.active }

/-- CrunchTimeGate.deactivate. -/
def CrunchTimeGate.deactivate (g : CrunchTimeGate) (game_id : String) : CrunchTimeGate :=
  { active := g.active.filter (fun x => ¬(x = game_id)) }

/-- CrunchTimeGate.is_active. -/
def CrunchTimeGate.is_active (g : CrunchTimeGate) (game_id : String) : Bool :=
  game_id ∈ g.active

/-- CrunchTimeGate.any_active. -/
def CrunchTimeGate.any_active (g : CrunchTimeGate) : Bool :=
  ¬g.active.isEmpty

/-- The inter-poll sleep ESPNClient.stream awaits at the bottom of each loop
iteration: max(0.0, poll_interval_s - elapsed), in nanoseconds here.  The
stream body has no other timing control: it reads no CrunchTimeGate (the
class has no gate attribute, and src/main.py constructs ESPNClient with only
sport and poll_interval_s and never builds a gate), so the sleep is the same
whatever the gate holds. -/
def espn_stream_sleep_ns (poll_interval_ns elapsed_ns : ℤ) : ℤ :=
  max 0 (poll_interval_ns - elapsed_ns)

/-! ## Small-step interleaving model of the totals signal path —
src/agents/brain.py lines 161-168 and 252-286.

A registered game holds a fixed array of n threshold entries (registration
happens at most once per game: _game_state moves None -> pending ->
registered/failed and entries are only installed on the pending -> registered
edge; a final event removes them and nothing ever rebuilds them).  Each
cooperative task that reaches _evaluate_and_signal for entry i first observes
already_triggered = false in the _process_event scan and then — still inside
the same atomic segment, before the first await of the coroutine — sets the
flag to true (line 253 is the first statement of the body).  The remainder of
the evaluation (halt check, cache read, possible REST-fallback suspension,
edge check, publish) may interleave with anything and either publishes one
signal on the entry or aborts.  Flag removal never happens.  The model keeps,
per entry, its flag, the number of in-flight evaluations, and the number of
signals published on it; it over-approximates the real scheduler by letting
every completion publish. -/

/-- Per-entry bookkeeping of the interleaved totals path. -/
structure C1State (n : ℕ) where
  flag : Fin n → Bool
  pending : Fin n → ℕ
  sig : Fin n → ℕ

/-- The initial state of a freshly registered game: flags as built by
build_basketball_entries / build_soccer_entries (pre-marked entries start
true), no in-flight evaluation, no published signal. -/
def c1Init (n : ℕ) (flag0 : Fin n → Bool) : C1State n :=
  { flag := flag0, pending := fun _ => 0, sig := fun _ => 0 }

/-- One atomic segment of the totals path. -/
inductive C1Step (n : ℕ) : C1State n → C1State n → Prop
  | beginEval (s : C1State n) (i : Fin n) :
      s.flag i = false →
      C1Step n s { flag := Function.update s.flag i true
                   pending := Function.update s.pending i (s.pending i + 1)
                   sig := s.sig }
  | finishPublish (s : C1State n) (i : Fin n) :
      0 < s.pending i →
      C1Step n s { flag := s.flag
                   pending := Function.update s.pending i (s.pending i - 1)
                   sig := Function.update s.sig i (s.sig i + 1) }
  | finishAbort (s : C1State n) (i : Fin n) :
      0 < s.pending i →
      C1Step n s { flag := s.flag
                   pending := Function.update s.pending i (s.pending i - 1)
                   sig := s.sig }

/-- Reachability under arbitrary interleavings. -/
def C1Reachable (n : ℕ) (flag0 : Fin n → Bool) : C1State n → Prop :=
  Relation.ReflTransGen (C1Step n) (c1Init n flag0)

/-- Total number of signals published on the entries carrying a ticker. -/
def signalsForTicker (n : ℕ) (tickers : Fin n → String) (s : C1State n) (t : String) : ℕ :=
  ((List.finRange n).map (fun i => if tickers i = t then s.sig i else 0)).sum

/-! ## Per-event moneyline trace — the repeated _check_moneyline_signal calls
one entry sees over a game, one call per consumed GameEvent. -/

/-- The per-event inputs of one check_moneyline_entry call: the halt flag,
the event fields, the scored flags derived from the previous-score snapshot,
the time.monotonic_ns() reading, and the watcher-cache lookup. -/
structure MLStepInput where
  halted : Bool
  sport : String
  period : ℤ
  lead : ℤ
  home_scored : Bool
  away_scored : Bool
  now_ns : ℤ
  market : Option MarketUpdate
deriving DecidableEq, Repr

/-- Fold check_moneyline_entry over the successive events, collecting the
now_ns timestamps at which a signal was published. -/
def ml_run (cfg : BrainConfig) (e : MoneylineEntry) :
    List MLStepInput → MoneylineEntry × List ℤ
  | [] => (e, [])
  | inp :: rest =>
      let step := check_moneyline_entry cfg inp.halted inp.sport inp.period inp.lead
        inp.home_scored inp.away_scored inp.now_ns e inp.market
      let tail := ml_run cfg step.1 rest
      (tail.1, (if step.2.isSome then [inp.now_ns] else []) ++ tail.2)

/-! ## Concrete two-entry instance used to exercise the C1 model. -/

/-- Two untriggered entries. -/
def c1wFlag0 : Fin 2 → Bool := fun _ => false

/-- Their tickers. -/
def c1wTickers : Fin 2 → String := fun i => if i = 0 then "T171" else "T174"

/-- State after the atomic begin segment of an evaluation on entry 0. -/
def c1wS1 : C1State 2 :=
  { flag := Function.update (c1Init 2 c1wFlag0).flag 0 true
    pending := Function.update (c1Init 2 c1wFlag0).pending 0
      ((c1Init 2 c1wFlag0).pending 0 + 1)
    sig := (c1Init 2 c1wFlag0).sig }

/-- State after that evaluation publishes its signal. -/
def c1wS2 : C1State 2 :=
  { flag := c1wS1.flag
    pending := Function.update c1wS1.pending 0 (c1wS1.pending 0 - 1)
    sig := Function.update c1wS1.sig 0 (c1wS1.sig 0 + 1) }

/-! # Theorems -/

/-- C3: in scenario S1 (registered entries at triggers 171/174/177, watcher
cache holding yes_ask = 88 on the 171 contract, min_edge_cents = 3,
max_slippage_cents = 2, default fee rate, risk not halted), a score event
with total 171 makes the totals path emit exactly one trade signal, on the
171 contract, side yes, limit price min(88 + 2, 93 - 3) = 90; and
max_tradeable_price 3 = 90. -/
theorem c3_s1_threshold_signal :
    process_totals { min_edge_cents := 3, max_slippage_cents := 2,
                     max_spend_per_trade_cents := 100, max_quantity := 50 }
        false
        (fun t => if t = "T171" then
            some { yes_bid := 80, yes_ask := 88, no_bid := 10, no_ask := 18 } else none)
        (fun _ => none) 171
        [{ trigger_score := 171, market_ticker := "T171", side := "yes",
           already_triggered := false },
         { trigger_score := 174, market_ticker := "T174", side := "yes",
           already_triggered := false },
         { trigger_score := 177, market_ticker := "T177", side := "yes",
           already_triggered := false }] =
      ([{ trigger_score := 171, market_ticker := "T171", side := "yes",
          already_triggered := true },
        { trigger_score := 174, market_ticker := "T174", side := "yes",
          already_triggered := false },
        { trigger_score := 177, market_ticker := "T177", side := "yes",
          already_triggered := false }],
       [{ market_ticker := "T171", side := "yes", max_price_cents := 90, quantity := 1 }]) ∧
    max_tradeable_price 3 = 90 := by
  decide

/-- C6: ESPNClient.stream sleeps max(0, poll_interval - elapsed) seconds
between polls regardless of the Crunch-Time Gate: with the default 0.75 s
interval and an instantaneous poll, the inter-poll sleep is 0.75 s, not the
30 s slow cadence the gate docs promise, even while no game is active in the
gate. -/
theorem c6_espn_sleep_ignores_gate :
    crunchTimeGateInit.any_active = false ∧
    espn_stream_sleep_ns 750000000 0 = 750000000 ∧
    ¬espn_stream_sleep_ns 750000000 0 = 30000000000 := by
  decide

/-- C7: Sniper and its circuit breaker: while the breaker is Open every
signal is dropped with no place_order call and a rejected fill is still
published; an order exception records a breaker failure and publishes a
rejected fill; an order success records a breaker success, resetting the
failure count to zero; and three failures with no intervening success,
starting from the fresh breaker with threshold 3, leave the breaker Open. -/
theorem c7_sniper_circuit_breaker :
    (∀ (r : Option String) (c t : ℕ) (o : OrderOutcome),
      sniper_execute { state := CBState.Open, reason := r, failure_count := c,
                       failure_threshold := t } o =
        ({ state := CBState.Open, reason := r, failure_count := c,
           failure_threshold := t },
         { placed_order := false, fill_status := "rejected" })) ∧
    (∀ (r : Option String) (c t : ℕ) (msg : String),
      sniper_execute { state := CBState.Closed, reason := r, failure_count := c,
                       failure_threshold := t } (OrderOutcome.err msg) =
        (CircuitBreaker.record_failure
          { state := CBState.Closed, reason := r, failure_count := c,
            failure_threshold := t } msg,
         { placed_order := true, fill_status := "rejected" })) ∧
    (∀ (r : Option String) (c t : ℕ) (status : String),
      sniper_execute { state := CBState.Closed, reason := r, failure_count := c,
                       failure_threshold := t } (OrderOutcome.ok status) =
        ({ state := CBState.Closed, reason := r, failure_count := 0,
           failure_threshold := t },
         { placed_order := true, fill_status := status })) ∧
    (∀ m1 m2 m3 : String,
      (sniper_run (circuitBreakerInit 3)
        [OrderOutcome.err m1, OrderOutcome.err m2, OrderOutcome.err m3]).1.state =
        CBState.Open) := by
  refine ⟨fun r c t o => ?_, fun r c t msg => rfl, fun r c t status => rfl,
    fun m1 m2 m3 => rfl⟩
  cases o <;> rfl

/-- Helper for C2: a signal of the totals evaluation path is limit-priced at
min(ask + slippage, max_tradeable_price), hence never above
net_payout - min_edge. -/
theorem evaluate_signal_price_le (cfg : BrainConfig) (entry : ThresholdEntry)
    (halted : Bool) (cache rest : Option MarketUpdate) (sig : ExecuteTrade)
    (h : (evaluate_and_signal cfg entry halted cache rest).2 = some sig) :
    sig.max_price_cents ≤ NET_PAYOUT_CENTS - cfg.min_edge_cents := by
  simp only [evaluate_and_signal] at h
  repeat (any_goals (split at h))
  all_goals dsimp only at h
  all_goals
    first
    | (have h2 := Option.some.inj h; subst h2; exact min_le_right _ _)
    | exact absurd h (by simp)

/-- Helper for C2: a moneyline signal is limit-priced at min(ask + slippage,
97), hence never above 97 cents. -/
theorem ml_signal_price_le (cfg : BrainConfig) (halted : Bool) (sport : String)
    (period lead : ℤ) (hsc asc : Bool) (now_ns : ℤ) (entry : MoneylineEntry)
    (market : Option MarketUpdate) (sig : ExecuteTrade)
    (h : (check_moneyline_entry cfg halted sport period lead hsc asc now_ns
      entry market).2 = some sig) :
    sig.max_price_cents ≤ 97 := by
  simp only [check_moneyline_entry] at h
  repeat (any_goals (split at h))
  all_goals dsimp only at h
  all_goals
    first
    | (have h2 := Option.some.inj h; subst h2; exact min_le_right _ _)
    | exact absurd h (by simp)

/-- C2 (amended): every totals (threshold-crossing) signal has
max_price_cents at most 100 x (1 - fee_rate) - min_edge_cents = 93 -
min_edge_cents; moneyline signals are instead capped at 97 cents and may
exceed that bound. -/
theorem c2_signal_price_bounds :
    (∀ (cfg : BrainConfig) (entry : ThresholdEntry) (halted : Bool)
        (cache rest : Option MarketUpdate) (sig : ExecuteTrade),
      (evaluate_and_signal cfg entry halted cache rest).2 = some sig →
        sig.max_price_cents ≤ NET_PAYOUT_CENTS - cfg.min_edge_cents) ∧
    (∀ (cfg : BrainConfig) (halted : Bool) (sport : String) (period lead : ℤ)
        (hsc asc : Bool) (now_ns : ℤ) (entry : MoneylineEntry)
        (market : Option MarketUpdate) (sig : ExecuteTrade),
      (check_moneyline_entry cfg halted sport period lead hsc asc now_ns
        entry market).2 = some sig →
        sig.max_price_cents ≤ 97) :=
  ⟨evaluate_signal_price_le, ml_signal_price_le⟩

/-- C2 counterexample: with min_edge_cents = 3 and max_slippage_cents = 4,
a moneyline evaluation (basketball, period 2, home just went up by 20, entry
off cooldown, yes ask 87 — which passes the fee-adjusted moneyline edge
check, int(100 x 0.97 x 0.93 - 87) = 3 >= 3) emits a signal priced
min(87 + 4, 97) = 91, above 100 x (1 - fee_rate) - min_edge_cents = 90. -/
theorem c2_counterexample :
    (check_moneyline_entry
        { min_edge_cents := 3, max_slippage_cents := 4,
          max_spend_per_trade_cents := 100, max_quantity := 50 }
        false "ncaa_basketball" 2 20 true false 45000000000
        { market_ticker := "MLGAME", team_side := "home", trade_side := "yes",
          last_signaled_ns := 0 }
        (some { yes_bid := 80, yes_ask := 87, no_bid := 5, no_ask := 15 })).2 =
      some { market_ticker := "MLGAME", side := "yes", max_price_cents := 91,
             quantity := 1 } ∧
    ¬((91 : ℤ) ≤ NET_PAYOUT_CENTS - 3) := by
  decide

/-- C2 witness: the amended bounds applied to concrete runs — the S1 totals
evaluation (signal priced 90 <= 93 - 3) and a default-slippage moneyline
evaluation (signal priced 89 <= 97). -/
theorem c2_signal_price_bounds_witness :
    ((90 : ℤ) ≤ NET_PAYOUT_CENTS - 3) ∧ ((89 : ℤ) ≤ 97) :=
  ⟨c2_signal_price_bounds.1
      { min_edge_cents := 3, max_slippage_cents := 2,
        max_spend_per_trade_cents := 100, max_quantity := 50 }
      { trigger_score := 171, market_ticker := "T171", side := "yes",
        already_triggered := false }
      false
      (some { yes_bid := 80, yes_ask := 88, no_bid := 10, no_ask := 18 }) none
      { market_ticker := "T171", side := "yes", max_price_cents := 90,
        quantity := 1 }
      (by decide),
   c2_signal_price_bounds.2
      { min_edge_cents := 3, max_slippage_cents := 2,
        max_spend_per_trade_cents := 100, max_quantity := 50 }
      false "ncaa_basketball" 2 20 true false 45000000000
      { market_ticker := "MLGAME", team_side := "home", trade_side := "yes",
        last_signaled_ns := 0 }
      (some { yes_bid := 80, yes_ask := 87, no_bid := 5, no_ask := 15 })
      { market_ticker := "MLGAME", side := "yes", max_price_cents := 89,
        quantity := 1 }
      (by decide)⟩

/-- C9: build_basketball_entries returns one entry per market whose ticker's
trailing '-'-separated segment parses as an integer (that integer being the
entry's trigger score; a malformed ticker is skipped), with
already_triggered set exactly when trigger <= current_total, sorted
ascending by trigger; build_soccer_entries is the same function; and
trigger_from_ticker maps the example ticker to 177 and malformed tickers —
a non-digit character, an empty trailing segment (including the empty
default ticker), a bare sign — to none, while accepting the surrounding
whitespace and between-digit underscores that int() accepts. -/
theorem c9_build_entries_postcondition :
    (∀ (total : ℤ) (mkts : List KalshiMarket),
      List.Sorted entryLE (build_basketball_entries total mkts) ∧
      (build_basketball_entries total mkts).Perm (mkts.filterMap fun mkt =>
        (trigger_from_ticker mkt.ticker).map fun trigger =>
          { trigger_score := trigger, market_ticker := mkt.ticker, side := "yes",
            already_triggered := decide (trigger ≤ total) }) ∧
      (∀ e ∈ build_basketball_entries total mkts,
        trigger_from_ticker e.market_ticker = some e.trigger_score ∧
        e.side = "yes" ∧
        (e.already_triggered = true ↔ e.trigger_score ≤ total))) ∧
    (∀ (total : ℤ) (mkts : List KalshiMarket),
      build_soccer_entries total mkts = build_basketball_entries total mkts) ∧
    trigger_from_ticker "KXNCAAMBTOTAL-26FEB19WEBBRAD-177" = some 177 ∧
    trigger_from_ticker "KXNCAAMBTOTAL-26FEB19WEBBRAD-17X" = none ∧
    trigger_from_ticker "KXNCAAMBTOTAL-26FEB19WEBBRAD-" = none ∧
    trigger_from_ticker "" = none ∧
    trigger_from_ticker "KXNCAAMBTOTAL-26FEB19WEBBRAD- 1_77 " = some 177 := by
  refine ⟨fun total mkts => ⟨?_, ?_, ?_⟩, fun total mkts => rfl, by decide, by decide,
    by decide, by decide, by decide⟩
  · exact List.sorted_insertionSort entryLE _
  · exact List.perm_insertionSort entryLE _
  · intro e he
    have he2 : e ∈ mkts.filterMap fun mkt =>
        (trigger_from_ticker mkt.ticker).map fun trigger =>
          ({ trigger_score := trigger, market_ticker := mkt.ticker, side := "yes",
             already_triggered := decide (trigger ≤ total) } : ThresholdEntry) :=
      (List.perm_insertionSort entryLE _).mem_iff.mp he
    rcases List.mem_filterMap.mp he2 with ⟨mkt, _, hf⟩
    rcases Option.map_eq_some'.mp hf with ⟨tr, hparse, hmk⟩
    subst hmk
    exact ⟨hparse, rfl, by simp⟩

/-- C9 witness: the postcondition applied to a singleton market list at
current_total = 180, instantiated at the one entry it builds. -/
theorem c9_build_entries_witness :
    trigger_from_ticker "KXNCAAMBTOTAL-26FEB19WEBBRAD-177" = some (177 : ℤ) ∧
    "yes" = "yes" ∧
    ((true = true) ↔ ((177 : ℤ) ≤ 180)) :=
  (c9_build_entries_postcondition.1 180
      [{ ticker := "KXNCAAMBTOTAL-26FEB19WEBBRAD-177" }]).2.2
    { trigger_score := 177, market_ticker := "KXNCAAMBTOTAL-26FEB19WEBBRAD-177",
      side := "yes", already_triggered := true }
    (by decide)

/-- Helper for C4: the limit checks only flip the halt flag; they leave the
exposure counter unchanged. -/
theorem shield_check_limits_exposure (cfg : ShieldConfig) (s : ShieldState) :
    (shield_check_limits cfg s).risk.open_exposure_cents =
      s.risk.open_exposure_cents := by
  unfold shield_check_limits RiskState.halt
  split_ifs <;> rfl

/-- Helper for C4: the limit checks leave the trade counter unchanged. -/
theorem shield_check_limits_trades (cfg : ShieldConfig) (s : ShieldState) :
    (shield_check_limits cfg s).risk.trades_today = s.risk.trades_today := by
  unfold shield_check_limits RiskState.halt
  split_ifs <;> rfl

/-- Helper for C4: one processed fill report with nonnegative price and
quantity never decreases the open exposure. -/
theorem shield_process_fill_exposure (cfg : ShieldConfig) (s : ShieldState)
    (r : FillReport) (h1 : 0 ≤ r.avg_price_cents) (h2 : 0 ≤ r.filled_quantity) :
    s.risk.open_exposure_cents ≤
      (shield_process_fill cfg s r).risk.open_exposure_cents := by
  unfold shield_process_fill
  split_ifs
  · rw [shield_check_limits_exposure]
    show s.risk.open_exposure_cents ≤
      (s.risk.apply_fill r.avg_price_cents r.filled_quantity).open_exposure_cents
    unfold RiskState.apply_fill
    have := mul_nonneg h1 h2
    simp only []
    linarith
  · exact le_refl _

/-- Helper for C4: one processed fill report never decreases trades_today. -/
theorem shield_process_fill_trades (cfg : ShieldConfig) (s : ShieldState)
    (r : FillReport) :
    s.risk.trades_today ≤ (shield_process_fill cfg s r).risk.trades_today := by
  unfold shield_process_fill
  split_ifs
  · rw [shield_check_limits_trades]
    show s.risk.trades_today ≤
      (s.risk.apply_fill r.avg_price_cents r.filled_quantity).trades_today
    unfold RiskState.apply_fill
    simp only []
    linarith
  · exact le_refl _

/-- Helper for C4: a whole run preserves nonnegative exposure. -/
theorem shield_run_exposure_nonneg (cfg : ShieldConfig) (reports : List FillReport) :
    ∀ s : ShieldState,
      (∀ r ∈ reports, 0 ≤ r.avg_price_cents ∧ 0 ≤ r.filled_quantity) →
      0 ≤ s.risk.open_exposure_cents →
      0 ≤ (shield_run cfg s reports).risk.open_exposure_cents := by
  induction reports with
  | nil => intro s _ h0; exact h0
  | cons r rest ih =>
      intro s hv h0
      have hr := hv r (List.mem_cons_self r rest)
      exact ih (shield_process_fill cfg s r)
        (fun x hx => hv x (List.mem_cons_of_mem r hx))
        (le_trans h0 (shield_process_fill_exposure cfg s r hr.1 hr.2))

/-- C4: over the fill-report sequence Shield actually processes (apply_fill
plus the halt checks; apply_settlement and resume have no caller), the open
exposure is nonnegative after every prefix and trades_today never decreases
from one prefix to the next, provided each report carries a nonnegative
average price and filled quantity. -/
theorem c4_risk_monotonicity (cfg : ShieldConfig) (reports : List FillReport)
    (hv : ∀ r ∈ reports, 0 ≤ r.avg_price_cents ∧ 0 ≤ r.filled_quantity) (n : ℕ) :
    0 ≤ (shield_run cfg shieldInit (reports.take n)).risk.open_exposure_cents ∧
    (shield_run cfg shieldInit (reports.take n)).risk.trades_today ≤
      (shield_run cfg shieldInit (reports.take (n + 1))).risk.trades_today := by
  constructor
  · exact shield_run_exposure_nonneg cfg (reports.take n) shieldInit
      (fun r hr => hv r (List.mem_of_mem_take hr)) (le_refl 0)
  · rw [List.take_succ]
    unfold shield_run
    rw [List.foldl_append]
    rcases reports[n]? with _ | r
    · exact le_refl _
    · exact shield_process_fill_trades cfg _ r

/-- C4 witness: the prefix invariant on a concrete one-report run. -/
theorem c4_risk_monotonicity_witness :
    0 ≤ (shield_run ⟨10000, 50000, 5⟩ shieldInit
        (([⟨"T171", 2, 50, "filled"⟩] : List FillReport).take 0)).risk.open_exposure_cents ∧
    (shield_run ⟨10000, 50000, 5⟩ shieldInit
        (([⟨"T171", 2, 50, "filled"⟩] : List FillReport).take 0)).risk.trades_today ≤
      (shield_run ⟨10000, 50000, 5⟩ shieldInit
        (([⟨"T171", 2, 50, "filled"⟩] : List FillReport).take (0 + 1))).risk.trades_today :=
  c4_risk_monotonicity ⟨10000, 50000, 5⟩ [⟨"T171", 2, 50, "filled"⟩] (by decide) 0

/-- Helper for C8: one moneyline check either leaves the entry untouched and
emits nothing, or — only when the entry was off cooldown — stamps
last_signaled_ns := now_ns (before the publish) and emits. -/
theorem check_moneyline_entry_shape (cfg : BrainConfig) (halted : Bool)
    (sport : String) (period lead : ℤ) (hsc asc : Bool) (now_ns : ℤ)
    (entry : MoneylineEntry) (market : Option MarketUpdate) :
    ((check_moneyline_entry cfg halted sport period lead hsc asc now_ns
        entry market).2 = none ∧
     (check_moneyline_entry cfg halted sport period lead hsc asc now_ns
        entry market).1 = entry) ∨
    ((check_moneyline_entry cfg halted sport period lead hsc asc now_ns
        entry market).2.isSome = true ∧
     (check_moneyline_entry cfg halted sport period lead hsc asc now_ns
        entry market).1 = entry.mark_signaled now_ns ∧
     entry.on_cooldown now_ns = false) := by
  simp only [check_moneyline_entry]
  repeat (any_goals split)
  all_goals
    first
    | exact Or.inl ⟨rfl, rfl⟩
    | (refine Or.inr ⟨rfl, rfl, ?_⟩; simp_all)

/-- Helper for C8: along any sequence of events, every published timestamp
is at least one cooldown after the entry's incoming last_signaled_ns, and the
published timestamps are pairwise separated by at least the cooldown. -/
theorem ml_run_separation (cfg : BrainConfig) :
    ∀ (inputs : List MLStepInput) (e : MoneylineEntry),
      (∀ t ∈ (ml_run cfg e inputs).2,
        e.last_signaled_ns + SIGNAL_COOLDOWN_NS ≤ t) ∧
      List.Pairwise (fun a b : ℤ => a + SIGNAL_COOLDOWN_NS ≤ b)
        (ml_run cfg e inputs).2 := by
  intro inputs
  induction inputs with
  | nil => intro e; simp [ml_run]
  | cons inp rest ih =>
      intro e
      rcases check_moneyline_entry_shape cfg inp.halted inp.sport inp.period
          inp.lead inp.home_scored inp.away_scored inp.now_ns e inp.market with
        ⟨hnone, hsame⟩ | ⟨hsome, hmark, hcool⟩
      · have hl : (ml_run cfg e (inp :: rest)).2 =
            (ml_run cfg ((check_moneyline_entry cfg inp.halted inp.sport
              inp.period inp.lead inp.home_scored inp.away_scored inp.now_ns e
              inp.market).1) rest).2 := by
          simp only [ml_run, hnone, Option.isSome_none, Bool.false_eq_true,
            if_false, List.nil_append]
        rw [hl, hsame]
        exact ih e
      · have hcool2 : e.last_signaled_ns + SIGNAL_COOLDOWN_NS ≤ inp.now_ns := by
          have := hcool
          simp only [MoneylineEntry.on_cooldown, decide_eq_false_iff_not,
            not_lt] at this
          linarith
        have hl : (ml_run cfg e (inp :: rest)).2 =
            inp.now_ns :: (ml_run cfg ((check_moneyline_entry cfg inp.halted
              inp.sport inp.period inp.lead inp.home_scored inp.away_scored
              inp.now_ns e inp.market).1) rest).2 := by
          simp only [ml_run, hsome, if_true, List.singleton_append]
        rw [hl, hmark]
        have ihm := ih (e.mark_signaled inp.now_ns)
        have hD : (0 : ℤ) ≤ SIGNAL_COOLDOWN_NS := by decide
        constructor
        · intro t ht
          rcases List.mem_cons.mp ht with rfl | ht2
          · exact hcool2
          · have := ihm.1 t ht2
            simp only [MoneylineEntry.mark_signaled] at this
            linarith
        · refine List.pairwise_cons.mpr ⟨?_, ihm.2⟩
          intro t ht2
          have := ihm.1 t ht2
          simpa [MoneylineEntry.mark_signaled] using this

/-- C8: for each moneyline entry, any two trade signals emitted on it are at
least 45 seconds apart by the monotonic clock — along every sequence of
score events, the list of publish timestamps is pairwise separated by
SIGNAL_COOLDOWN_NS, because a signal fires only when
now_ns - last_signaled_ns >= 45 s and mark_signaled runs before the
publish. -/
theorem c8_moneyline_cooldown (cfg : BrainConfig) (e : MoneylineEntry)
    (inputs : List MLStepInput) :
    List.Pairwise (fun a b : ℤ => a + SIGNAL_COOLDOWN_NS ≤ b)
      (ml_run cfg e inputs).2 :=
  (ml_run_separation cfg inputs e).2

/-- Helper for C5: one interleaved step preserves the Oracle dedup invariant:
the per-game publish-attempt trace never repeats consecutively, and the dedup
dict holds exactly the last attempted scores of each game. -/
theorem oracle_inv_step (cap : ℕ) (s : OracleState) (a : OracleAct)
    (h : ∀ g : String,
      List.Chain' (fun p q : ℤ × ℤ => p ≠ q) (gameScoreTrace s.attempts g) ∧
      seenLookup s g = (gameScoreTrace s.attempts g).getLast?) :
    ∀ g : String,
      List.Chain' (fun p q : ℤ × ℤ => p ≠ q)
        (gameScoreTrace (oracleStep cap s a).attempts g) ∧
      seenLookup (oracleStep cap s a) g =
        (gameScoreTrace (oracleStep cap s a).attempts g).getLast? := by
  cases a with
  | consume => exact h
  | deliver e =>
      intro g
      simp only [oracleStep]
      by_cases hdup : seenLookup s e.game_id = some (e.home_score, e.away_score)
      · have hsame : maybe_publish cap s e = s := by
          simp [maybe_publish, hdup]
        rw [hsame]
        exact h g
      · have hatt : (maybe_publish cap s e).attempts = s.attempts ++ [e] := by
          unfold maybe_publish publish_game_event
          rw [if_neg hdup]
          split_ifs <;> rfl
        have hseen : (maybe_publish cap s e).seen =
            (e.game_id, (e.home_score, e.away_score)) :: s.seen := by
          unfold maybe_publish publish_game_event
          rw [if_neg hdup]
          split_ifs <;> rfl
        by_cases hg : e.game_id = g
        · subst hg
          have htr : gameScoreTrace (maybe_publish cap s e).attempts e.game_id =
              gameScoreTrace s.attempts e.game_id ++
                [(e.home_score, e.away_score)] := by
            rw [hatt]
            simp [gameScoreTrace]
          have hlook : seenLookup (maybe_publish cap s e) e.game_id =
              some (e.home_score, e.away_score) := by
            simp [seenLookup, hseen, List.lookup]
          constructor
          · rw [htr, List.chain'_append]
            refine ⟨(h e.game_id).1, List.chain'_singleton _, ?_⟩
            intro x hx y hy
            simp only [List.head?_cons, Option.mem_def, Option.some.injEq] at hy
            subst hy
            intro hxy
            apply hdup
            rw [(h e.game_id).2, ← hxy]
            exact Option.mem_def.mp hx
          · rw [hlook, htr, List.getLast?_concat]
        · have hgne : ¬(g = e.game_id) := fun hh => hg hh.symm
          have htr : gameScoreTrace (maybe_publish cap s e).attempts g =
              gameScoreTrace s.attempts g := by
            rw [hatt]
            simp [gameScoreTrace, hg]
          have hbeq : (g == e.game_id) = false := beq_eq_false_iff_ne.mpr hgne
          have hlook : seenLookup (maybe_publish cap s e) g = seenLookup s g := by
            simp [seenLookup, hseen, List.lookup, hbeq]
          rw [htr, hlook]
          exact h g

/-- Helper for C5: the invariant holds after any run. -/
theorem oracle_run_inv (cap : ℕ) :
    ∀ (acts : List OracleAct) (s : OracleState),
      (∀ g : String,
        List.Chain' (fun p q : ℤ × ℤ => p ≠ q) (gameScoreTrace s.attempts g) ∧
        seenLookup s g = (gameScoreTrace s.attempts g).getLast?) →
      (∀ g : String,
        List.Chain' (fun p q : ℤ × ℤ => p ≠ q)
          (gameScoreTrace (oracleRun cap s acts).attempts g) ∧
        seenLookup (oracleRun cap s acts) g =
          (gameScoreTrace (oracleRun cap s acts).attempts g).getLast?) := by
  intro acts
  induction acts with
  | nil => intro s h; exact h
  | cons a rest ih =>
      intro s h
      exact ih (oracleStep cap s a) (oracle_inv_step cap s a h)

/-- C5 (amended): over every interleaving of feed deliveries, the Oracle's
per-game sequence of published score events never repeats the same
(home, away) pair twice in a row — a delivery equal to the game's most
recently seen scores is silently dropped; after an intervening different
score for the same game, an earlier triple can be published again. -/
theorem c5_oracle_consecutive_dedup (cap : ℕ) (acts : List OracleAct) (g : String) :
    List.Chain' (fun p q : ℤ × ℤ => p ≠ q)
      (gameScoreTrace (oracleRun cap oracleInit acts).attempts g) :=
  (oracle_run_inv cap acts oracleInit
    (fun _ => ⟨List.chain'_nil, rfl⟩) g).1

/-- C5 counterexample: with deliveries 1-0, 2-0, 1-0 for one game, the Oracle
publishes the triple (game, 1, 0) twice over the process lifetime — the
dedup dict only remembers the latest scores, so the claimed lifetime
at-most-once bound per distinct triple fails. -/
theorem c5_counterexample :
    ¬(countTriple
        (oracleRun 50 oracleInit
          [OracleAct.deliver ⟨"ncaa_basketball", "g1", 1, 0, 1, 1, false⟩,
           OracleAct.deliver ⟨"ncaa_basketball", "g1", 2, 0, 2, 1, false⟩,
           OracleAct.deliver ⟨"ncaa_basketball", "g1", 1, 0, 1, 1, false⟩]).attempts
        "g1" 1 0 ≤ 1) := by
  decide

/-- Helper for C10: once the dedup dict maps a game to given scores, a run
whose deliveries for that game all carry exactly those scores leaves the
dict entry in place and adds no publish attempt of that triple. -/
theorem oracle_run_frozen (cap : ℕ) (g : String) (hv av : ℤ) :
    ∀ (acts : List OracleAct) (s : OracleState),
      seenLookup s g = some (hv, av) →
      (∀ e' : GameEvent, OracleAct.deliver e' ∈ acts → e'.game_id = g →
        e'.home_score = hv ∧ e'.away_score = av) →
      seenLookup (oracleRun cap s acts) g = some (hv, av) ∧
      countTriple (oracleRun cap s acts).attempts g hv av =
        countTriple s.attempts g hv av := by
  intro acts
  induction acts with
  | nil => intro s hseen _; exact ⟨hseen, rfl⟩
  | cons a rest ih =>
      intro s hseen hacts
      have hstep : oracleRun cap s (a :: rest) =
          oracleRun cap (oracleStep cap s a) rest := rfl
      rw [hstep]
      have hrest : ∀ e' : GameEvent, OracleAct.deliver e' ∈ rest →
          e'.game_id = g → e'.home_score = hv ∧ e'.away_score = av :=
        fun e' he' => hacts e' (List.mem_cons_of_mem a he')
      cases a with
      | consume => exact ih (oracleStep cap s OracleAct.consume) hseen hrest
      | deliver e' =>
          by_cases hgid : e'.game_id = g
          · obtain ⟨hh, ha⟩ := hacts e' (List.mem_cons_self _ _) hgid
            have hdup : seenLookup s e'.game_id =
                some (e'.home_score, e'.away_score) := by
              rw [hgid, hseen, hh, ha]
            have hsame : oracleStep cap s (OracleAct.deliver e') = s := by
              simp [oracleStep, maybe_publish, hdup]
            rw [hsame]
            exact ih s hseen hrest
          · by_cases hdup : seenLookup s e'.game_id =
                some (e'.home_score, e'.away_score)
            · have hsame : oracleStep cap s (OracleAct.deliver e') = s := by
                simp [oracleStep, maybe_publish, hdup]
              rw [hsame]
              exact ih s hseen hrest
            · have hgne : ¬(g = e'.game_id) := fun hh => hgid hh.symm
              have hbeq : (g == e'.game_id) = false := beq_eq_false_iff_ne.mpr hgne
              have hatt : (oracleStep cap s (OracleAct.deliver e')).attempts =
                  s.attempts ++ [e'] := by
                simp only [oracleStep]
                unfold maybe_publish publish_game_event
                rw [if_neg hdup]
                split_ifs <;> rfl
              have hseen2 : (oracleStep cap s (OracleAct.deliver e')).seen =
                  (e'.game_id, (e'.home_score, e'.away_score)) :: s.seen := by
                simp only [oracleStep]
                unfold maybe_publish publish_game_event
                rw [if_neg hdup]
                split_ifs <;> rfl
              have hlook : seenLookup (oracleStep cap s (OracleAct.deliver e')) g =
                  some (hv, av) := by
                simp [seenLookup, hseen2, List.lookup, hbeq]
                simpa [seenLookup] using hseen
              have hcnt : countTriple
                  (oracleStep cap s (OracleAct.deliver e')).attempts g hv av =
                  countTriple s.attempts g hv av := by
                simp [countTriple, hatt, List.countP_append, hgid]
              have := ih (oracleStep cap s (OracleAct.deliver e')) hlook hrest
              rw [hcnt] at this
              exact this

/-- C10 (amended): the Oracle's dedup dict is updated before the publish
attempt, so an event lost to a full game_events channel is still marked
seen; as long as every subsequent delivery for that game carries the same
scores, each is treated as a duplicate and dropped, and no new attempt of
that triple reaches the bus.  (After an intervening delivery with different
scores for the same game, the lost score can be re-delivered —
see the counterexample.) -/
theorem c10_lost_event_marked_seen (cap : ℕ) (s : OracleState) (e : GameEvent)
    (acts : List OracleAct)
    (hfull : cap ≤ s.queue.length)
    (hacts : ∀ e' : GameEvent, OracleAct.deliver e' ∈ acts →
      e'.game_id = e.game_id →
      e'.home_score = e.home_score ∧ e'.away_score = e.away_score) :
    (maybe_publish cap s e).queue = s.queue ∧
    seenLookup (maybe_publish cap s e) e.game_id =
      some (e.home_score, e.away_score) ∧
    countTriple (oracleRun cap (maybe_publish cap s e) acts).attempts
        e.game_id e.home_score e.away_score =
      countTriple (maybe_publish cap s e).attempts
        e.game_id e.home_score e.away_score := by
  have hq : (maybe_publish cap s e).queue = s.queue := by
    unfold maybe_publish publish_game_event
    split_ifs with h1 h2
    · rfl
    · dsimp only at h2
      omega
    · rfl
  have hl : seenLookup (maybe_publish cap s e) e.game_id =
      some (e.home_score, e.away_score) := by
    unfold maybe_publish publish_game_event
    split_ifs with h1 h2
    · exact h1
    · simp [seenLookup, List.lookup]
    · simp [seenLookup, List.lookup]
  exact ⟨hq, hl, (oracle_run_frozen cap e.game_id e.home_score e.away_score
    acts (maybe_publish cap s e) hl hacts).2⟩

/-- C10 counterexample: capacity-1 channel; 1-0 is enqueued, 2-0 arrives
while the channel is full and is lost; after the consumer drains and a 3-0
correction arrives, a fresh 2-0 delivery is no longer seen as a duplicate
and reaches the bus — the lost score update is re-delivered. -/
theorem c10_counterexample :
    (oracleRun 1 oracleInit
        [OracleAct.deliver ⟨"s", "g1", 1, 0, 1, 1, false⟩,
         OracleAct.deliver ⟨"s", "g1", 2, 0, 2, 1, false⟩]).queue =
      [⟨"s", "g1", 1, 0, 1, 1, false⟩] ∧
    (oracleRun 1 oracleInit
        [OracleAct.deliver ⟨"s", "g1", 1, 0, 1, 1, false⟩,
         OracleAct.deliver ⟨"s", "g1", 2, 0, 2, 1, false⟩]).attempts =
      [⟨"s", "g1", 1, 0, 1, 1, false⟩, ⟨"s", "g1", 2, 0, 2, 1, false⟩] ∧
    (oracleRun 1 oracleInit
        [OracleAct.deliver ⟨"s", "g1", 1, 0, 1, 1, false⟩,
         OracleAct.deliver ⟨"s", "g1", 2, 0, 2, 1, false⟩,
         OracleAct.consume,
         OracleAct.deliver ⟨"s", "g1", 3, 0, 3, 1, false⟩,
         OracleAct.consume,
         OracleAct.deliver ⟨"s", "g1", 2, 0, 2, 1, false⟩]).queue =
      [⟨"s", "g1", 2, 0, 2, 1, false⟩] := by
  decide

/-- C10 witness: the amended statement on a concrete full channel. -/
theorem c10_lost_event_marked_seen_witness :
    (maybe_publish 1 ⟨[], [⟨"s", "gx", 0, 0, 0, 1, false⟩], []⟩
        ⟨"s", "g1", 1, 0, 1, 1, false⟩).queue =
      (⟨[], [⟨"s", "gx", 0, 0, 0, 1, false⟩], []⟩ : OracleState).queue ∧
    seenLookup (maybe_publish 1 ⟨[], [⟨"s", "gx", 0, 0, 0, 1, false⟩], []⟩
        ⟨"s", "g1", 1, 0, 1, 1, false⟩)
        (⟨"s", "g1", 1, 0, 1, 1, false⟩ : GameEvent).game_id =
      some ((⟨"s", "g1", 1, 0, 1, 1, false⟩ : GameEvent).home_score,
        (⟨"s", "g1", 1, 0, 1, 1, false⟩ : GameEvent).away_score) ∧
    countTriple (oracleRun 1 (maybe_publish 1
        ⟨[], [⟨"s", "gx", 0, 0, 0, 1, false⟩], []⟩
        ⟨"s", "g1", 1, 0, 1, 1, false⟩)
        [OracleAct.consume,
         OracleAct.deliver ⟨"s", "g1", 1, 0, 1, 1, false⟩]).attempts
        "g1" 1 0 =
      countTriple (maybe_publish 1 ⟨[], [⟨"s", "gx", 0, 0, 0, 1, false⟩], []⟩
        ⟨"s", "g1", 1, 0, 1, 1, false⟩).attempts "g1" 1 0 :=
  c10_lost_event_marked_seen 1 ⟨[], [⟨"s", "gx", 0, 0, 0, 1, false⟩], []⟩
    ⟨"s", "g1", 1, 0, 1, 1, false⟩
    [OracleAct.consume, OracleAct.deliver ⟨"s", "g1", 1, 0, 1, 1, false⟩]
    (by decide)
    (by
      intro e' he' hgid
      simp only [List.mem_cons, List.not_mem_nil, or_false] at he'
      rcases he' with he' | he'
      · exact absurd he' (by simp)
      · cases he'
        exact ⟨rfl, rfl⟩)

/-- Helper for C1: one atomic segment preserves the per-entry bound: signal
count plus in-flight evaluations never exceeds 1 once the flag is set, and
is 0 while the flag is clear. -/
theorem c1_step_preserve (n : ℕ) (a b : C1State n) (hab : C1Step n a b)
    (ih : ∀ i, a.sig i + a.pending i ≤ if a.flag i = true then 1 else 0) :
    ∀ i, b.sig i + b.pending i ≤ if b.flag i = true then 1 else 0 := by
  cases hab with
  | beginEval j hflag =>
      intro i
      dsimp only
      by_cases hij : i = j
      · subst hij
        have hj := ih i
        rw [hflag] at hj
        rw [if_neg Bool.false_ne_true] at hj
        rw [Function.update_same, Function.update_same, if_pos rfl]
        omega
      · rw [Function.update_noteq hij, Function.update_noteq hij]
        exact ih i
  | finishPublish j hp =>
      intro i
      dsimp only
      by_cases hij : i = j
      · subst hij
        have hj := ih i
        rw [Function.update_same, Function.update_same]
        by_cases hc : a.flag i = true
        · rw [if_pos hc] at hj ⊢
          omega
        · rw [if_neg hc] at hj ⊢
          omega
      · rw [Function.update_noteq hij, Function.update_noteq hij]
        exact ih i
  | finishAbort j hp =>
      intro i
      dsimp only
      by_cases hij : i = j
      · subst hij
        have hj := ih i
        rw [Function.update_same]
        by_cases hc : a.flag i = true
        · rw [if_pos hc] at hj ⊢
          omega
        · rw [if_neg hc] at hj ⊢
          omega
      · rw [Function.update_noteq hij]
        exact ih i

/-- Helper for C1: the bound holds in every reachable state. -/
theorem c1_invariant (n : ℕ) (flag0 : Fin n → Bool) (s : C1State n)
    (h : C1Reachable n flag0 s) :
    ∀ i, s.sig i + s.pending i ≤ if s.flag i = true then 1 else 0 := by
  induction h with
  | refl =>
      intro i
      show 0 + 0 ≤ _
      split <;> omega
  | tail _ hbc ih => exact c1_step_preserve n _ _ hbc ih

/-- Helper for C1: summing a per-index count bounded by 1 over a duplicate-
free index list, restricted to the indices carrying one fixed ticker, stays
bounded by 1 when tickers are injective. -/
theorem sum_if_ticker_le_one (n : ℕ) (tickers : Fin n → String) (t : String)
    (f : Fin n → ℕ) (hf : ∀ i, f i ≤ 1) (hinj : Function.Injective tickers) :
    ∀ l : List (Fin n), l.Nodup →
      (l.map fun i => if tickers i = t then f i else 0).sum ≤ 1 := by
  intro l
  induction l with
  | nil => intro _; simp
  | cons a rest ih =>
      intro hnd
      rcases List.nodup_cons.mp hnd with ⟨hna, hnd2⟩
      simp only [List.map_cons, List.sum_cons]
      by_cases ha : tickers a = t
      · have hrest : (rest.map fun i => if tickers i = t then f i else 0).sum = 0 := by
          apply List.sum_eq_zero
          intro x hx
          rcases List.mem_map.mp hx with ⟨j, hj, hxj⟩
          subst hxj
          by_cases hjt : tickers j = t
          · have hja : j = a := hinj (hjt.trans ha.symm)
            exact absurd (hja ▸ hj) hna
          · simp [hjt]
        rw [if_pos ha, hrest, Nat.add_zero]
        exact hf a
      · rw [if_neg ha, Nat.zero_add]
        exact ih hnd2

/-- C1: at-most-once signal per (game_id, ticker) on the totals path — in
the small-step model of brain._process_event / _evaluate_and_signal, where
the already_triggered flag is checked clear and set true inside one atomic
segment (before the halt check, cache read, REST fallback, edge check and
publish), every interleaving of score events for the registered game
publishes at most one signal per ticker, the game's entries carrying
pairwise distinct tickers. -/
theorem c1_at_most_once_per_ticker (n : ℕ) (flag0 : Fin n → Bool)
    (tickers : Fin n → String) (hinj : Function.Injective tickers)
    (s : C1State n) (hs : C1Reachable n flag0 s) (t : String) :
    signalsForTicker n tickers s t ≤ 1 := by
  have hf : ∀ i, s.sig i ≤ 1 := by
    intro i
    have := c1_invariant n flag0 s hs i
    split at this <;> omega
  exact sum_if_ticker_le_one n tickers t s.sig hf hinj
    (List.finRange n) (List.nodup_finRange n)

/-- C1 witness: a two-entry game in which one evaluation begins and
publishes; the published count on its ticker is 1 and stays within the
bound. -/
theorem c1_at_most_once_per_ticker_witness :
    signalsForTicker 2 c1wTickers c1wS2 "T171" ≤ 1 :=
  c1_at_most_once_per_ticker 2 c1wFlag0 c1wTickers (by decide) c1wS2
    (Relation.ReflTransGen.tail
      (Relation.ReflTransGen.tail Relation.ReflTransGen.refl
        (C1Step.beginEval (c1Init 2 c1wFlag0) 0 rfl))
      (C1Step.finishPublish c1wS1 0 (by decide)))
    "T171"
